import Mathlib

/-!
Shallow embedding of `home.py` (the California housing-price Streamlit app).

The embedding covers the three cores of the program:
  * the geometry normalization pipeline of `carregar_dados_geo`
    (explode multipolygons, repair invalid geometries with a zero
    buffer, orient rings counter-clockwise, extract exterior rings);
  * the feature assembly done inside the form (`gdf_geo.query` lookups,
    income scaling, `np.digitize` bucketing, the `entrada_modelo` dict);
  * the prediction call `modelo.predict(df_entrada_modelo)` followed by
    the extraction `preco[0][0]`.

Numbers are modelled by `ℚ`.  The opaque shapely collaborators
`is_valid` and `buffer(0)` are parameters of the pipeline; `orient`
(shapely.geometry.polygon.orient with sign 1.0) and the signed-area
computation it relies on are embedded concretely.
-/

/-- A ring of 2D coordinates, as stored by shapely (`exterior.coords`):
a list of `(x, y)` points, closed rings repeating the first point last. -/
abbrev LinearRing : Type := List (ℚ × ℚ)

/-- A shapely geometry as reachable in `carregar_dados_geo`: a `Polygon`
(exterior ring plus interior rings) or a `MultiPolygon` (a list of such
polygons, each given as exterior ring plus interior rings). -/
inductive Geometry : Type
  | Polygon (ext : LinearRing) (holes : List LinearRing)
  | MultiPolygon (parts : List (LinearRing × List LinearRing))
deriving DecidableEq

/-- Cross term of the shoelace formula for one edge `p → q`. -/
def cross (p q : ℚ × ℚ) : ℚ := p.1 * q.2 - q.1 * p.2

/-- Shoelace sum over the consecutive point pairs of a ring (twice the
enclosed signed area for a closed ring). -/
def shoelace : List (ℚ × ℚ) → ℚ
  | p :: q :: rest => cross p q + shoelace (q :: rest)
  | _ => 0

/-- Signed area of a ring (`shapely.algorithms.cga.signed_area`):
half the shoelace sum; positive for counter-clockwise rings. -/
def signed_area (r : List (ℚ × ℚ)) : ℚ := shoelace r / 2

/-- Orientation of an exterior ring as done by
`shapely.geometry.polygon.orient(polygon, sign=1.0)`: keep the ring when
its signed area is nonnegative, otherwise reverse the point order. -/
def orient_ext (r : LinearRing) : LinearRing :=
  if 0 ≤ signed_area r then r else r.reverse

/-- Orientation of an interior ring (hole) by the same `orient` call:
holes get the opposite convention (nonpositive signed area). -/
def orient_hole (r : LinearRing) : LinearRing :=
  if signed_area r ≤ 0 then r else r.reverse

/-- `shapely.geometry.polygon.orient(geometry, sign=1.0)` as invoked on
line 51 of `home.py`: exterior rings counter-clockwise, holes clockwise,
applied to every constituent polygon. -/
def orient : Geometry → Geometry
  | Geometry.Polygon ext holes =>
      Geometry.Polygon (orient_ext ext) (holes.map orient_hole)
  | Geometry.MultiPolygon parts =>
      Geometry.MultiPolygon
        (parts.map (fun pr => (orient_ext pr.1, pr.2.map orient_hole)))

/-- `fix_and_orient_geometry` (home.py lines 45-52), with the opaque
shapely collaborators `is_valid` and `buffer(0)` as parameters.  In this
embedding every `Geometry` is a `Polygon` or `MultiPolygon`, so the
`isinstance` guard of line 48 is always true and `orient` is applied
unconditionally. -/
def fix_and_orient_geometry (isValid : Geometry → Bool)
    (buffer0 : Geometry → Geometry) (g : Geometry) : Geometry :=
  let g1 := if isValid g then g else buffer0 g
  orient g1

/-- `get_polygon_coordinates` (home.py lines 58-66): one coordinate list
for the exterior ring of a simple polygon, one per constituent polygon
of a multipolygon; interior rings are dropped. -/
def get_polygon_coordinates : Geometry → List LinearRing
  | Geometry.Polygon ext _holes => [ext]
  | Geometry.MultiPolygon parts => parts.map Prod.fst

/-- `gdf_geo.explode(ignore_index=True)` (home.py line 42) on one
geometry: a multipolygon is split into its constituent polygons, a
simple polygon passes through unchanged. -/
def explodeGeom : Geometry → List Geometry
  | Geometry.Polygon ext holes => [Geometry.Polygon ext holes]
  | Geometry.MultiPolygon parts =>
      parts.map (fun pr => Geometry.Polygon pr.1 pr.2)

/-- The geometry transformation of `carregar_dados_geo`
(home.py lines 39-71) on rows pairing region attributes `α` with a raw
geometry: explode row-wise, then apply `fix_and_orient_geometry` to the
geometry column, then apply `get_polygon_coordinates` to it. -/
def carregar_dados_geo {α : Type} (isValid : Geometry → Bool)
    (buffer0 : Geometry → Geometry) (rows : List (α × Geometry)) :
    List (α × List LinearRing) :=
  let exploded :=
    rows.flatMap (fun rg => (explodeGeom rg.2).map (fun g => (rg.1, g)))
  let fixed :=
    exploded.map
      (fun rg => (rg.1, fix_and_orient_geometry isValid buffer0 rg.2))
  fixed.map (fun rg => (rg.1, get_polygon_coordinates rg.2))

/-- Processing of one input row of `carregar_dados_geo`: explode its
geometry, repair and orient each part, extract coordinates, keeping the
row's region attributes on every resulting entry. -/
def normalizeRow {α : Type} (isValid : Geometry → Bool)
    (buffer0 : Geometry → Geometry) (rg : α × Geometry) :
    List (α × List LinearRing) :=
  (explodeGeom rg.2).map
    (fun g => (rg.1, get_polygon_coordinates
      (fix_and_orient_geometry isValid buffer0 g)))

/-- Number of constituent simple polygons of a geometry. -/
def numParts : Geometry → ℕ
  | Geometry.Polygon _ _ => 1
  | Geometry.MultiPolygon parts => parts.length

/-- A concrete instance of the opaque `is_valid` collaborator used for
evaluating the pipeline on concrete inputs: a geometry counts as valid
when none of its exterior rings is degenerate (zero signed area). -/
def isValidDemo (g : Geometry) : Bool :=
  (get_polygon_coordinates g).all (fun r => decide (signed_area r ≠ 0))

/-- A concrete instance of the opaque zero-buffer repair collaborator:
on a degenerate input it yields the empty polygon, exhibiting the
spec-documented possibility that repair still yields an empty geometry. -/
def buffer0Demo (g : Geometry) : Geometry :=
  if isValidDemo g then g else Geometry.Polygon [] []

/-- A zero-area (degenerate) closed ring. -/
def degenerate_ring : LinearRing := [(0, 0), (1, 1), (0, 0)]

/-- A valid unit square, counter-clockwise, closed. -/
def square_ring : LinearRing := [(0, 0), (1, 0), (1, 1), (0, 1), (0, 0)]

/-- One row of `gdf_geo` without its geometry column: the per-county
attributes read by the form of `home.py` (lines 107-149). -/
structure Region : Type where
  name : String
  longitude : ℚ
  latitude : ℚ
  total_rooms : ℚ
  total_bedrooms : ℚ
  population : ℚ
  households : ℚ
  ocean_proximity : String
  rooms_per_household : ℚ
  bedrooms_per_room : ℚ
  population_per_household : ℚ
deriving DecidableEq

/-- A value of the `entrada_modelo` dict (home.py lines 152-166): the
`gdf_geo.query(...)[col].values` lookups are arrays (one element per
matching row), while the user inputs and the derived income fields are
scalars. -/
inductive FieldVal : Type
  | qArr (vs : List ℚ)
  | sArr (vs : List String)
  | qScalar (v : ℚ)
  | natScalar (v : ℕ)
deriving DecidableEq

/-- `condados = sorted(gdf_geo["name"].unique())` (home.py line 93). -/
def condados (rows : List Region) : List String :=
  List.mergeSort ((rows.map Region.name).dedup) (fun a b => decide (a ≤ b))

/-- `gdf_geo.query("name == @selecionar_condado")` (home.py, used on
lines 107-149): the rows whose `name` equals the selected county. -/
def query_name (rows : List Region) (c : String) : List Region :=
  rows.filter (fun r => r.name == c)

/-- `gdf_geo.query("name == @selecionar_condado")[col].values`: the
array of values of one column over the matching rows. -/
def query_values {β : Type} (rows : List Region) (c : String)
    (f : Region → β) : List β :=
  (query_name rows c).map f

/-- `bins_income = [0, 1.5, 3, 4.5, 6, np.inf]` (home.py line 137),
with `np.inf` modelled as the top element of `WithTop ℚ`. -/
def bins_income : List (WithTop ℚ) :=
  [((0 : ℚ) : WithTop ℚ), ((3 / 2 : ℚ) : WithTop ℚ), ((3 : ℚ) : WithTop ℚ),
    ((9 / 2 : ℚ) : WithTop ℚ), ((6 : ℚ) : WithTop ℚ), ⊤]

/-- `np.digitize(x, bins=bins)` (home.py line 138) for monotonically
increasing `bins` and the default `right=False`: the number of bin edges
that are `≤ x`, i.e. the index `i` with `bins[i-1] ≤ x < bins[i]`. -/
def np_digitize (x : ℚ) (bins : List (WithTop ℚ)) : ℕ :=
  bins.countP (fun e => decide (e ≤ (x : WithTop ℚ)))

/-- The `entrada_modelo` dict (home.py lines 107-166) assembled from the
catalog rows, the selected county, and the two user inputs
`housing_median_age` (integer number input) and `median_income` (slider,
in raw slider units).  Python dicts preserve insertion order, so the
record is a list of key-value pairs in the order of the dict literal. -/
def entrada_modelo (rows : List Region) (selecionar_condado : String)
    (housing_median_age : ℕ) (median_income : ℚ) :
    List (String × FieldVal) :=
  let median_income_scale := median_income / 10
  let median_income_cat := np_digitize median_income_scale bins_income
  [("longitude", FieldVal.qArr
      (query_values rows selecionar_condado Region.longitude)),
   ("latitude", FieldVal.qArr
      (query_values rows selecionar_condado Region.latitude)),
   ("housing_median_age", FieldVal.natScalar housing_median_age),
   ("total_rooms", FieldVal.qArr
      (query_values rows selecionar_condado Region.total_rooms)),
   ("total_bedrooms", FieldVal.qArr
      (query_values rows selecionar_condado Region.total_bedrooms)),
   ("population", FieldVal.qArr
      (query_values rows selecionar_condado Region.population)),
   ("households", FieldVal.qArr
      (query_values rows selecionar_condado Region.households)),
   ("median_income", FieldVal.qScalar median_income_scale),
   ("ocean_proximity", FieldVal.sArr
      (query_values rows selecionar_condado Region.ocean_proximity)),
   ("median_income_cat", FieldVal.natScalar median_income_cat),
   ("rooms_per_household", FieldVal.qArr
      (query_values rows selecionar_condado Region.rooms_per_household)),
   ("bedrooms_per_room", FieldVal.qArr
      (query_values rows selecionar_condado Region.bedrooms_per_room)),
   ("population_per_household", FieldVal.qArr
      (query_values rows selecionar_condado Region.population_per_household))]

/-- Value of a key in an assembled record (first occurrence). -/
def recordGet (rec : List (String × FieldVal)) (k : String) :
    Option FieldVal :=
  (rec.find? (fun kv => kv.1 == k)).map Prod.snd

/-- The prediction step (home.py lines 175-177):
`preco = modelo.predict(df_entrada_modelo)` followed by the extraction
`preco[0][0]`.  The predictor is opaque, so its outcome is the input
here: either a raised exception or a result matrix.  An exception
propagates unchanged; `preco[0]` on an empty result and `preco[0][0]` on
an empty first row raise an `IndexError`; otherwise the element at row
0, column 0 is returned. -/
def preco_previsto (res : Except String (List (List ℚ))) :
    Except String ℚ :=
  match res with
  | Except.error e => Except.error e
  | Except.ok m =>
    match m.head? with
    | none => Except.error ("IndexError")
    | some row =>
      match row.head? with
      | none => Except.error ("IndexError")
      | some v => Except.ok v

/-- A concrete one-row catalog used to evaluate lookups concretely. -/
def region_demo : Region :=
  { name := "Alameda", longitude := -122, latitude := 37,
    total_rooms := 800, total_bedrooms := 100, population := 300,
    households := 100, ocean_proximity := "INLAND",
    rooms_per_household := 7, bedrooms_per_room := 1 / 5,
    population_per_household := 2 }

lemma shoelace_append_last (l : List (ℚ × ℚ)) (a : ℚ × ℚ) :
    shoelace (l ++ [a]) =
      shoelace l + (match l.getLast? with
        | some b => cross b a
        | none => 0) := by
  induction l with
  | nil => simp [shoelace]
  | cons b t ih =>
    cases t with
    | nil => simp [shoelace]
    | cons c rest =>
      have hlast : (b :: c :: rest).getLast? = (c :: rest).getLast? := by
        simp [List.getLast?]
      calc shoelace ((b :: c :: rest) ++ [a])
          = cross b c + shoelace ((c :: rest) ++ [a]) := by
            simp [shoelace]
        _ = cross b c + (shoelace (c :: rest) +
              (match (c :: rest).getLast? with
                | some x => cross x a
                | none => 0)) := by rw [ih]
        _ = shoelace (b :: c :: rest) +
              (match (b :: c :: rest).getLast? with
                | some x => cross x a
                | none => 0) := by
            rw [hlast]; simp only [shoelace]; ring

lemma shoelace_reverse (l : List (ℚ × ℚ)) :
    shoelace l.reverse = - shoelace l := by
  induction l with
  | nil => simp [shoelace]
  | cons a t ih =>
    rw [List.reverse_cons, shoelace_append_last]
    cases t with
    | nil => simp [shoelace]
    | cons b rest =>
      have hlast : ((b :: rest).reverse).getLast? = some b := by
        rw [List.getLast?_reverse]; rfl
      rw [hlast, ih]
      have hcross : cross b a = - cross a b := by
        simp only [cross]; ring
      simp only [shoelace, hcross]
      ring

lemma signed_area_reverse (l : List (ℚ × ℚ)) :
    signed_area l.reverse = - signed_area l := by
  simp [signed_area, shoelace_reverse]; ring

lemma orient_ext_nonneg (r : LinearRing) : 0 ≤ signed_area (orient_ext r) := by
  unfold orient_ext
  split_ifs with h
  · exact h
  · rw [signed_area_reverse]; linarith

lemma orient_ext_of_nonneg {r : LinearRing} (h : 0 ≤ signed_area r) :
    orient_ext r = r := by
  unfold orient_ext; exact if_pos h

lemma orient_hole_nonpos (r : LinearRing) :
    signed_area (orient_hole r) ≤ 0 := by
  unfold orient_hole
  split_ifs with h
  · exact h
  · rw [signed_area_reverse]; linarith

lemma orient_ext_idem (r : LinearRing) :
    orient_ext (orient_ext r) = orient_ext r :=
  orient_ext_of_nonneg (orient_ext_nonneg r)

lemma orient_hole_of_nonpos {r : LinearRing} (h : signed_area r ≤ 0) :
    orient_hole r = r := by
  unfold orient_hole; exact if_pos h

lemma orient_hole_idem (r : LinearRing) :
    orient_hole (orient_hole r) = orient_hole r :=
  orient_hole_of_nonpos (orient_hole_nonpos r)

lemma orient_idem (g : Geometry) : orient (orient g) = orient g := by
  cases g with
  | Polygon ext holes =>
    simp only [orient, orient_ext_idem, List.map_map]
    refine congrArg _ (List.map_congr_left ?_)
    intro r _
    exact orient_hole_idem r
  | MultiPolygon parts =>
    simp only [orient, List.map_map]
    refine congrArg _ (List.map_congr_left ?_)
    intro pr _
    simp only [Function.comp_apply, orient_ext_idem, List.map_map]
    refine congrArg _ (List.map_congr_left ?_)
    intro r _
    exact orient_hole_idem r

lemma coords_orient_nonneg (g : Geometry) :
    ∀ lr ∈ get_polygon_coordinates (orient g), 0 ≤ signed_area lr := by
  cases g with
  | Polygon ext holes =>
    intro lr hlr
    simp only [orient, get_polygon_coordinates, List.mem_singleton] at hlr
    rw [hlr]
    exact orient_ext_nonneg ext
  | MultiPolygon parts =>
    intro lr hlr
    simp only [orient, get_polygon_coordinates, List.map_map,
      List.mem_map] at hlr
    obtain ⟨pr, _, hpr⟩ := hlr
    rw [← hpr]
    exact orient_ext_nonneg pr.1

lemma carregar_eq_flatMap {α : Type} (isValid : Geometry → Bool)
    (buffer0 : Geometry → Geometry) (rows : List (α × Geometry)) :
    carregar_dados_geo isValid buffer0 rows =
      rows.flatMap (normalizeRow isValid buffer0) := by
  unfold carregar_dados_geo normalizeRow
  simp only [List.map_flatMap, List.map_map]
  rfl

lemma np_digitize_bins_income (x : ℚ) :
    np_digitize x bins_income =
      if x < 0 then 0
      else if x < 3 / 2 then 1
      else if x < 3 then 2
      else if x < 9 / 2 then 3
      else if x < 6 then 4
      else 5 := by
  have htop : ¬ ((⊤ : WithTop ℚ) ≤ (x : WithTop ℚ)) := by simp
  simp only [np_digitize, bins_income, List.countP_cons, List.countP_nil,
    decide_eq_true_eq, WithTop.coe_le_coe, htop, if_false]
  rcases lt_or_le x 0 with h1 | h1
  · have d1 : ¬ ((0 : ℚ) ≤ x) := not_le.mpr h1
    have d2 : ¬ ((3 / 2 : ℚ) ≤ x) := by intro h; linarith
    have d3 : ¬ ((3 : ℚ) ≤ x) := by intro h; linarith
    have d4 : ¬ ((9 / 2 : ℚ) ≤ x) := by intro h; linarith
    have d5 : ¬ ((6 : ℚ) ≤ x) := by intro h; linarith
    simp [h1, d1, d2, d3, d4, d5]
  have e1 : ¬ (x < 0) := not_lt.mpr h1
  rcases lt_or_le x (3 / 2) with h2 | h2
  · have d2 : ¬ ((3 / 2 : ℚ) ≤ x) := not_le.mpr h2
    have d3 : ¬ ((3 : ℚ) ≤ x) := by intro h; linarith
    have d4 : ¬ ((9 / 2 : ℚ) ≤ x) := by intro h; linarith
    have d5 : ¬ ((6 : ℚ) ≤ x) := by intro h; linarith
    simp [h1, h2, e1, d2, d3, d4, d5]
  have e2 : ¬ (x < 3 / 2) := not_lt.mpr h2
  rcases lt_or_le x 3 with h3 | h3
  · have d3 : ¬ ((3 : ℚ) ≤ x) := not_le.mpr h3
    have d4 : ¬ ((9 / 2 : ℚ) ≤ x) := by intro h; linarith
    have d5 : ¬ ((6 : ℚ) ≤ x) := by intro h; linarith
    have g2 : (3 / 2 : ℚ) ≤ x := h2
    simp [h1, h3, e1, e2, g2, d3, d4, d5]
  have e3 : ¬ (x < 3) := not_lt.mpr h3
  rcases lt_or_le x (9 / 2) with h4 | h4
  · have d4 : ¬ ((9 / 2 : ℚ) ≤ x) := not_le.mpr h4
    have d5 : ¬ ((6 : ℚ) ≤ x) := by intro h; linarith
    have g2 : (3 / 2 : ℚ) ≤ x := by linarith
    simp [h1, h3, h4, e1, e2, e3, g2, d4, d5]
  have e4 : ¬ (x < 9 / 2) := not_lt.mpr h4
  rcases lt_or_le x 6 with h5 | h5
  · have d5 : ¬ ((6 : ℚ) ≤ x) := not_le.mpr h5
    have g2 : (3 / 2 : ℚ) ≤ x := by linarith
    have g3 : (3 : ℚ) ≤ x := by linarith
    simp [h1, h4, h5, e1, e2, e3, e4, g2, g3, d5]
  have e5 : ¬ (x < 6) := not_lt.mpr h5
  have g2 : (3 / 2 : ℚ) ≤ x := by linarith
  have g3 : (3 : ℚ) ≤ x := by linarith
  have g4 : (9 / 2 : ℚ) ≤ x := by linarith
  simp [h1, h5, e1, e2, e3, e4, e5, g2, g3, g4]

lemma mem_condados (rows : List Region) (c : String) :
    c ∈ condados rows ↔ ∃ r ∈ rows, r.name = c := by
  simp only [condados, List.mem_mergeSort, List.mem_dedup, List.mem_map]

lemma np_digitize_bounds (x : ℚ) (hx : 0 ≤ x) :
    1 ≤ np_digitize x bins_income ∧ np_digitize x bins_income ≤ 5 := by
  rw [np_digitize_bins_income]
  split_ifs with w1 w2 w3 w4 w5
  · exact absurd w1 (not_lt.mpr hx)
  · omega
  · omega
  · omega
  · omega
  · omega

lemma np_digitize_eq_iff (x : ℚ) (hx : 0 ≤ x) (i : ℕ) (h1 : 1 ≤ i)
    (h5 : i ≤ 5) :
    np_digitize x bins_income = i ↔
      bins_income.getD (i - 1) ⊤ ≤ (x : WithTop ℚ)
        ∧ (x : WithTop ℚ) < bins_income.getD i ⊤ := by
  have hg0 : bins_income.getD 0 ⊤ = ((0 : ℚ) : WithTop ℚ) := rfl
  have hg1 : bins_income.getD 1 ⊤ = ((3 / 2 : ℚ) : WithTop ℚ) := rfl
  have hg2 : bins_income.getD 2 ⊤ = ((3 : ℚ) : WithTop ℚ) := rfl
  have hg3 : bins_income.getD 3 ⊤ = ((9 / 2 : ℚ) : WithTop ℚ) := rfl
  have hg4 : bins_income.getD 4 ⊤ = ((6 : ℚ) : WithTop ℚ) := rfl
  have hg5 : bins_income.getD 5 ⊤ = (⊤ : WithTop ℚ) := rfl
  interval_cases i
  · rw [np_digitize_bins_income, hg0, hg1, WithTop.coe_le_coe,
      WithTop.coe_lt_coe]
    constructor
    · intro he
      split_ifs at he with w1 w2 w3 w4 w5 <;>
        first
          | omega
          | exact ⟨le_of_not_lt w1, w2⟩
    · rintro ⟨hlo, hhi⟩
      rw [if_neg (not_lt.mpr hlo), if_pos hhi]
  · rw [np_digitize_bins_income, hg1, hg2, WithTop.coe_le_coe,
      WithTop.coe_lt_coe]
    constructor
    · intro he
      split_ifs at he with w1 w2 w3 w4 w5 <;>
        first
          | omega
          | exact ⟨le_of_not_lt w2, w3⟩
    · rintro ⟨hlo, hhi⟩
      rw [if_neg (not_lt.mpr hx), if_neg (not_lt.mpr hlo), if_pos hhi]
  · rw [np_digitize_bins_income, hg2, hg3, WithTop.coe_le_coe,
      WithTop.coe_lt_coe]
    constructor
    · intro he
      split_ifs at he with w1 w2 w3 w4 w5 <;>
        first
          | omega
          | exact ⟨le_of_not_lt w3, w4⟩
    · rintro ⟨hlo, hhi⟩
      rw [if_neg (not_lt.mpr hx), if_neg (not_lt.mpr (by linarith)),
        if_neg (not_lt.mpr hlo), if_pos hhi]
  · rw [np_digitize_bins_income, hg3, hg4, WithTop.coe_le_coe,
      WithTop.coe_lt_coe]
    constructor
    · intro he
      split_ifs at he with w1 w2 w3 w4 w5 <;>
        first
          | omega
          | exact ⟨le_of_not_lt w4, w5⟩
    · rintro ⟨hlo, hhi⟩
      rw [if_neg (not_lt.mpr hx), if_neg (not_lt.mpr (by linarith)),
        if_neg (not_lt.mpr (by linarith)), if_neg (not_lt.mpr hlo),
        if_pos hhi]
  · rw [np_digitize_bins_income, hg4, hg5, WithTop.coe_le_coe]
    constructor
    · intro he
      split_ifs at he with w1 w2 w3 w4 w5 <;>
        first
          | omega
          | exact ⟨le_of_not_lt w5, WithTop.coe_lt_top x⟩
    · rintro ⟨hlo, _⟩
      rw [if_neg (not_lt.mpr hx), if_neg (not_lt.mpr (by linarith)),
        if_neg (not_lt.mpr (by linarith)),
        if_neg (not_lt.mpr (by linarith)), if_neg (not_lt.mpr hlo)]

/-- C1: the income bucketing over edges `[0, 1.5, 3, 4.5, 6, ∞)` assigns
every nonnegative scaled income `x` the unique index `i` in `1..5` with
`e[i-1] ≤ x < e[i]` (left-inclusive, right-open); in particular
`bucket(1.49) = 1`, `bucket(1.5) = 2`, `bucket(4.5) = 4`,
`bucket(6.0) = 5`, `bucket(1000) = 5`, and a record assembled from raw
median income `45.0` contains `median_income_cat = 4`. -/
theorem np_digitize_spec :
    np_digitize (149 / 100) bins_income = 1
    ∧ np_digitize (3 / 2) bins_income = 2
    ∧ np_digitize (9 / 2) bins_income = 4
    ∧ np_digitize 6 bins_income = 5
    ∧ np_digitize 1000 bins_income = 5
    ∧ (∀ (rows : List Region) (c : String),
        recordGet (entrada_modelo rows c 10 45) ("median_income_cat")
          = some (FieldVal.natScalar 4))
    ∧ (∀ x : ℚ, 0 ≤ x →
        (1 ≤ np_digitize x bins_income ∧ np_digitize x bins_income ≤ 5)
        ∧ (∀ i : ℕ, 1 ≤ i → i ≤ 5 →
            (np_digitize x bins_income = i ↔
              bins_income.getD (i - 1) ⊤ ≤ (x : WithTop ℚ)
                ∧ (x : WithTop ℚ) < bins_income.getD i ⊤))) := by
  refine ⟨?_, ?_, ?_, ?_, ?_, ?_, ?_⟩
  · rw [np_digitize_bins_income]; norm_num
  · rw [np_digitize_bins_income]; norm_num
  · rw [np_digitize_bins_income]; norm_num
  · rw [np_digitize_bins_income]; norm_num
  · rw [np_digitize_bins_income]; norm_num
  · intro rows c
    have hv : np_digitize (45 / 10) bins_income = 4 := by
      rw [np_digitize_bins_income]; norm_num
    simp [recordGet, entrada_modelo, hv]
  · intro x hx
    exact ⟨np_digitize_bounds x hx, fun i h1 h5 =>
      np_digitize_eq_iff x hx i h1 h5⟩

/-- C1 witness: the characterization of `np_digitize_spec` applied at
the concrete scaled income `2`, which lies in bucket `2`. -/
theorem np_digitize_spec_witness : np_digitize 2 bins_income = 2 :=
  ((np_digitize_spec.2.2.2.2.2.2 2 (by norm_num)).2 2 (by norm_num)
      (by norm_num)).mpr
    ⟨by
        rw [show bins_income.getD (2 - 1) ⊤ = ((3 / 2 : ℚ) : WithTop ℚ)
          from rfl]
        exact WithTop.coe_le_coe.mpr (by norm_num),
      by
        rw [show bins_income.getD 2 ⊤ = ((3 : ℚ) : WithTop ℚ) from rfl]
        exact WithTop.coe_lt_coe.mpr (by norm_num)⟩

/-- C2: for every catalog, selected county and pair of user overrides,
the assembled record has exactly the ordered field set
`longitude, latitude, housing_median_age, total_rooms, total_bedrooms,
population, households, median_income, ocean_proximity,
median_income_cat, rooms_per_household, bedrooms_per_room,
population_per_household` — no field missing and no extra field. -/
theorem entrada_modelo_keys_exact (rows : List Region) (c : String)
    (housing_median_age : ℕ) (median_income : ℚ) :
    (entrada_modelo rows c housing_median_age median_income).map Prod.fst
      = ["longitude", "latitude", "housing_median_age", "total_rooms",
         "total_bedrooms", "population", "households", "median_income",
         "ocean_proximity", "median_income_cat", "rooms_per_household",
         "bedrooms_per_room", "population_per_household"] := rfl

/-- C6: in every assembled record the ten region-sourced fields hold
exactly the column values looked up for the selected county — terms in
which neither user override occurs — while `housing_median_age` holds
the age override and `median_income` the scaled income override. -/
theorem entrada_modelo_region_verbatim (rows : List Region) (c : String)
    (housing_median_age : ℕ) (median_income : ℚ) :
    recordGet (entrada_modelo rows c housing_median_age median_income)
        ("longitude")
      = some (FieldVal.qArr (query_values rows c Region.longitude))
    ∧ recordGet (entrada_modelo rows c housing_median_age median_income)
        ("latitude")
      = some (FieldVal.qArr (query_values rows c Region.latitude))
    ∧ recordGet (entrada_modelo rows c housing_median_age median_income)
        ("total_rooms")
      = some (FieldVal.qArr (query_values rows c Region.total_rooms))
    ∧ recordGet (entrada_modelo rows c housing_median_age median_income)
        ("total_bedrooms")
      = some (FieldVal.qArr (query_values rows c Region.total_bedrooms))
    ∧ recordGet (entrada_modelo rows c housing_median_age median_income)
        ("population")
      = some (FieldVal.qArr (query_values rows c Region.population))
    ∧ recordGet (entrada_modelo rows c housing_median_age median_income)
        ("households")
      = some (FieldVal.qArr (query_values rows c Region.households))
    ∧ recordGet (entrada_modelo rows c housing_median_age median_income)
        ("ocean_proximity")
      = some (FieldVal.sArr (query_values rows c Region.ocean_proximity))
    ∧ recordGet (entrada_modelo rows c housing_median_age median_income)
        ("rooms_per_household")
      = some (FieldVal.qArr
          (query_values rows c Region.rooms_per_household))
    ∧ recordGet (entrada_modelo rows c housing_median_age median_income)
        ("bedrooms_per_room")
      = some (FieldVal.qArr
          (query_values rows c Region.bedrooms_per_room))
    ∧ recordGet (entrada_modelo rows c housing_median_age median_income)
        ("population_per_household")
      = some (FieldVal.qArr
          (query_values rows c Region.population_per_household))
    ∧ recordGet (entrada_modelo rows c housing_median_age median_income)
        ("housing_median_age")
      = some (FieldVal.natScalar housing_median_age)
    ∧ recordGet (entrada_modelo rows c housing_median_age median_income)
        ("median_income")
      = some (FieldVal.qScalar (median_income / 10)) :=
  ⟨rfl, rfl, rfl, rfl, rfl, rfl, rfl, rfl, rfl, rfl, rfl, rfl⟩

/-- C7: for every raw median-income input `x` and every selected county,
the `median_income` field of the assembled record is exactly `x / 10`,
whatever the catalog and county are. -/
theorem entrada_modelo_income_factor (rows : List Region) (c : String)
    (housing_median_age : ℕ) (x : ℚ) :
    recordGet (entrada_modelo rows c housing_median_age x)
        ("median_income")
      = some (FieldVal.qScalar (x / 10)) := rfl

/-- C3 counterexample: on the predictor result `[[250000, 7]]`, whose
shape is `1×2` and not `1×1`, the prediction step succeeds and returns
`250000` instead of failing. -/
theorem preco_previsto_wide_result_ok :
    preco_previsto (Except.ok [[(250000 : ℚ), 7]])
        = Except.ok (250000 : ℚ)
    ∧ ([[(250000 : ℚ), 7]] : List (List ℚ)).length = 1
    ∧ (([[(250000 : ℚ), 7]] : List (List ℚ)).headD []).length = 2 :=
  ⟨rfl, rfl, rfl⟩

/-- C3 (amended): the prediction step passes the assembled batch to the
predictor and extracts the scalar at row 0, column 0; a predictor
exception propagates to the caller unchanged, an empty result or an
empty first row fails with an index error, and a result with extra rows
or columns does not fail — the first scalar is extracted and the rest
ignored; there is no retry and no suppression of a failure. -/
theorem preco_previsto_amended :
    (∀ e, preco_previsto (Except.error e) = Except.error e)
    ∧ preco_previsto (Except.ok ([] : List (List ℚ)))
        = Except.error ("IndexError")
    ∧ (∀ rest : List (List ℚ),
        preco_previsto (Except.ok (([] : List ℚ) :: rest))
          = Except.error ("IndexError"))
    ∧ (∀ (v : ℚ) (vs : List ℚ) (rest : List (List ℚ)),
        preco_previsto (Except.ok ((v :: vs) :: rest)) = Except.ok v) :=
  ⟨fun _ => rfl, rfl, fun _ => rfl, fun _ _ _ => rfl⟩

lemma signed_area_degenerate : signed_area degenerate_ring = 0 := by
  simp [degenerate_ring, signed_area, shoelace, cross]

lemma signed_area_nil : signed_area ([] : LinearRing) = 0 := by
  simp [signed_area, shoelace]

lemma isValidDemo_degenerate :
    isValidDemo (Geometry.Polygon degenerate_ring []) = false := by
  simp [isValidDemo, get_polygon_coordinates, signed_area_degenerate]

lemma carregar_demo_degenerate :
    carregar_dados_geo isValidDemo buffer0Demo
        [(("A" : String), Geometry.Polygon degenerate_ring [])]
      = [(("A" : String), [([] : LinearRing)])] := by
  simp [carregar_dados_geo, explodeGeom, fix_and_orient_geometry,
    isValidDemo_degenerate, buffer0Demo, orient, orient_ext,
    signed_area_nil, get_polygon_coordinates, isValidDemo,
    signed_area_degenerate]

/-- C4 counterexample: a region whose geometry is degenerate (a
zero-area ring) and whose zero-buffer repair yields the empty polygon is
not excluded from the pipeline output: it appears in the renderable set
as an entry with one empty ring, and no diagnostic channel exists. -/
theorem degenerate_region_not_excluded :
    carregar_dados_geo isValidDemo buffer0Demo
        [(("A" : String), Geometry.Polygon degenerate_ring [])]
      = [(("A" : String), [([] : LinearRing)])]
    ∧ (carregar_dados_geo isValidDemo buffer0Demo
        [(("A" : String), Geometry.Polygon degenerate_ring [])]).length
        ≠ 0 := by
  refine ⟨carregar_demo_degenerate, ?_⟩
  rw [carregar_demo_degenerate]
  simp

/-- C4 (amended): a region whose geometry is still empty or degenerate
after the zero-buffer repair is kept in the renderable output (as an
entry whose rings may be empty or zero-area); no diagnostic is recorded
(the pipeline returns only the transformed rows).  Processing is
row-local: the output for a concatenation of inputs is the concatenation
of the outputs, so a region never aborts the pipeline or affects the
output of any other region, and every polygon row yields exactly one
output entry whatever the repair produces. -/
theorem carregar_locality {α : Type} (isValid : Geometry → Bool)
    (buffer0 : Geometry → Geometry) (rows₁ rows₂ : List (α × Geometry))
    (r : α) (ext : LinearRing) (holes : List LinearRing) :
    carregar_dados_geo isValid buffer0 (rows₁ ++ rows₂)
        = carregar_dados_geo isValid buffer0 rows₁
          ++ carregar_dados_geo isValid buffer0 rows₂
    ∧ (carregar_dados_geo isValid buffer0
        [(r, Geometry.Polygon ext holes)]).length = 1 := by
  constructor
  · rw [carregar_eq_flatMap, carregar_eq_flatMap, carregar_eq_flatMap]
    exact List.flatMap_append rows₁ rows₂ _
  · rw [carregar_eq_flatMap]
    simp [normalizeRow, explodeGeom]

/-- C5 counterexample: the pipeline output for the degenerate region
contains the empty exterior ring, whose signed area is `0` and hence not
positive, refuting that every produced exterior ring has positive signed
area. -/
theorem orientation_positive_counterexample :
    carregar_dados_geo isValidDemo buffer0Demo
        [(("A" : String), Geometry.Polygon degenerate_ring [])]
      = [(("A" : String), [([] : LinearRing)])]
    ∧ ¬ (0 < signed_area ([] : LinearRing)) := by
  refine ⟨carregar_demo_degenerate, ?_⟩
  rw [signed_area_nil]
  exact lt_irrefl 0

lemma mem_carregar_ring_nonneg {α : Type} (isValid : Geometry → Bool)
    (buffer0 : Geometry → Geometry) (rows : List (α × Geometry))
    (entry : α × List LinearRing) (lr : LinearRing)
    (hentry : entry ∈ carregar_dados_geo isValid buffer0 rows)
    (hlr : lr ∈ entry.2) : 0 ≤ signed_area lr := by
  rw [carregar_eq_flatMap, List.mem_flatMap] at hentry
  obtain ⟨rg, _, hmem⟩ := hentry
  unfold normalizeRow at hmem
  rw [List.mem_map] at hmem
  obtain ⟨g, _, hg⟩ := hmem
  rw [← hg] at hlr
  unfold fix_and_orient_geometry at hlr
  exact coords_orient_nonneg _ lr hlr

/-- C5 (amended): every exterior ring of every entry produced by the
normalization pipeline has nonnegative signed area (a ring with nonzero
area is counter-clockwise, while an empty or degenerate surviving ring
has signed area exactly `0`, not positive); the orientation step leaves
an already-correctly-oriented ring unchanged and is idempotent. -/
theorem orientation_amended {α : Type} (isValid : Geometry → Bool)
    (buffer0 : Geometry → Geometry) (rows : List (α × Geometry))
    (entry : α × List LinearRing) (lr : LinearRing) (g : Geometry) :
    (entry ∈ carregar_dados_geo isValid buffer0 rows → lr ∈ entry.2 →
      0 ≤ signed_area lr)
    ∧ (0 ≤ signed_area lr → orient_ext lr = lr)
    ∧ orient (orient g) = orient g :=
  ⟨fun h1 h2 => mem_carregar_ring_nonneg isValid buffer0 rows entry lr h1 h2,
    fun h => orient_ext_of_nonneg h,
    orient_idem g⟩

lemma signed_area_square : signed_area square_ring = 1 := by
  simp [square_ring, signed_area, shoelace, cross]

lemma carregar_demo_square :
    carregar_dados_geo isValidDemo buffer0Demo
        [(("A" : String), Geometry.Polygon square_ring [])]
      = [(("A" : String), [square_ring])] := by
  have hv : isValidDemo (Geometry.Polygon square_ring []) = true := by
    simp [isValidDemo, get_polygon_coordinates, signed_area_square]
  simp [carregar_dados_geo, explodeGeom, fix_and_orient_geometry, hv,
    orient, orient_ext, signed_area_square, get_polygon_coordinates]

/-- C5 witness: `orientation_amended` applied to the concrete pipeline
run on a valid unit square, whose output ring it shows nonnegative. -/
theorem orientation_amended_witness : 0 ≤ signed_area square_ring :=
  (orientation_amended isValidDemo buffer0Demo
      [(("A" : String), Geometry.Polygon square_ring [])]
      (("A" : String), [square_ring]) square_ring
      (Geometry.Polygon square_ring [])).1
    (by rw [carregar_demo_square]; exact List.mem_singleton.mpr rfl)
    (List.mem_singleton.mpr rfl)

/-- C9: in the pipeline output, a region row carrying a multipolygon of
`n` constituent simple polygons contributes exactly `n` entries, each
paired with that row's region attributes, and a row carrying a single
polygon contributes exactly one entry with its attributes; the rest of
the output is the output for the remaining rows, unchanged. -/
theorem explode_cardinality {α : Type} (isValid : Geometry → Bool)
    (buffer0 : Geometry → Geometry) (rows₁ rows₂ : List (α × Geometry))
    (r : α) (parts : List (LinearRing × List LinearRing))
    (ext : LinearRing) (holes : List LinearRing) :
    carregar_dados_geo isValid buffer0
        (rows₁ ++ (r, Geometry.MultiPolygon parts) :: rows₂)
      = carregar_dados_geo isValid buffer0 rows₁
        ++ normalizeRow isValid buffer0 (r, Geometry.MultiPolygon parts)
        ++ carregar_dados_geo isValid buffer0 rows₂
    ∧ (normalizeRow isValid buffer0
        (r, Geometry.MultiPolygon parts)).length = parts.length
    ∧ (normalizeRow isValid buffer0
        (r, Geometry.MultiPolygon parts)).map Prod.fst
        = List.replicate parts.length r
    ∧ (normalizeRow isValid buffer0
        (r, Geometry.Polygon ext holes)).length = 1
    ∧ (normalizeRow isValid buffer0
        (r, Geometry.Polygon ext holes)).map Prod.fst = [r] := by
  refine ⟨?_, ?_, ?_, ?_, ?_⟩
  · rw [carregar_eq_flatMap, carregar_eq_flatMap, carregar_eq_flatMap]
    simp [List.flatMap_append, List.append_assoc]
  · simp [normalizeRow, explodeGeom]
  · simp [normalizeRow, explodeGeom, List.map_map]
    exact List.map_const' parts r
  · simp [normalizeRow, explodeGeom]
  · simp [normalizeRow, explodeGeom]

/-- C10: a repaired geometry can itself be a multipolygon that stays in
a single output row — a polygon row always yields exactly one entry,
whose value is the coordinate extraction of whatever
`fix_and_orient_geometry` produced — and coordinate extraction emits the
single exterior ring of a simple polygon and one exterior ring per
constituent polygon of a multipolygon. -/
theorem coordinates_per_part {α : Type} (isValid : Geometry → Bool)
    (buffer0 : Geometry → Geometry) (r : α) (ext : LinearRing)
    (holes : List LinearRing) (g : Geometry) :
    normalizeRow isValid buffer0 (r, Geometry.Polygon ext holes)
      = [(r, get_polygon_coordinates
          (fix_and_orient_geometry isValid buffer0
            (Geometry.Polygon ext holes)))]
    ∧ (get_polygon_coordinates g).length = numParts g
    ∧ get_polygon_coordinates (Geometry.Polygon ext holes) = [ext]
    ∧ (∀ parts, get_polygon_coordinates (Geometry.MultiPolygon parts)
        = parts.map Prod.fst) := by
  refine ⟨?_, ?_, rfl, fun _ => rfl⟩
  · simp [normalizeRow, explodeGeom]
  · cases g <;> simp [get_polygon_coordinates, numParts]

/-- C8 counterexample: looking up a name absent from the one-county
catalog returns the empty row set — an empty result, not a NotFound
failure (the lookup has no failure channel at all). -/
theorem lookup_unknown_empty :
    query_name [region_demo] ("Nowhere") = ([] : List Region) := rfl

/-- C8 (amended): looking up any name that appears in the sorted
`condados` listing yields a nonempty row set (it never fails), and
looking up a name that is not in the listing yields the empty row set
rather than failing with a NotFound error. -/
theorem lookup_amended (rows : List Region) (c : String) :
    (c ∈ condados rows → query_name rows c ≠ [])
    ∧ (c ∉ condados rows → query_name rows c = []) := by
  constructor
  · intro hc hnil
    obtain ⟨r, hr, hname⟩ := (mem_condados rows c).mp hc
    have hmem : r ∈ query_name rows c :=
      List.mem_filter.mpr ⟨hr, by simp [hname]⟩
    rw [hnil] at hmem
    exact absurd hmem (List.not_mem_nil r)
  · intro hc
    unfold query_name
    rw [List.filter_eq_nil_iff]
    intro r hr
    simp only [beq_iff_eq]
    intro hname
    exact hc ((mem_condados rows c).mpr ⟨r, hr, hname⟩)

/-- C8 witness: `lookup_amended` applied to a concrete one-county
catalog and a name from its listing. -/
theorem lookup_amended_witness :
    ("Alameda" ∈ condados [region_demo])
    ∧ query_name [region_demo] ("Alameda") ≠ [] := by
  have hm : ("Alameda" : String) ∈ condados [region_demo] :=
    (mem_condados [region_demo] ("Alameda")).mpr
      ⟨region_demo, List.mem_singleton.mpr rfl, rfl⟩
  exact ⟨hm, (lookup_amended [region_demo] ("Alameda")).1 hm⟩
